import Mathlib

/-
Verification of the text-protocol parsing and decoding layer of the
device-diagnostic tool (src/diag_tool_logic.py), shallowly embedded in Lean.

Conventions of the embedding:
* Python strings are modelled as `List Char` (named `Str` below); Python's
  unbounded integers as `Nat` / `Int`; Python floats as exact rationals `ℚ`.
* Regex searches are modelled by hand-rolled matchers that implement the
  specific patterns of the source (case-insensitive literals, greedy
  digit / character-class runs, lazy gaps with backtracking, and a search
  that tries each start position left to right).  The matchers operate on
  single lines, which contain no newline character, so the fact that `.`
  does not cross a newline needs no special treatment.
* `str.splitlines` is modelled for newline-separated text (the only line
  separator the upstream tool emits, per the spec's interface section).
-/

abbrev Str := List Char

/-- The newline character. -/
def nlChar : Char := Char.ofNat 10

/-- ASCII lower-casing, as used by case-insensitive regex matching. -/
def lowerChar (c : Char) : Char :=
  if 'A' ≤ c ∧ c ≤ 'Z' then Char.ofNat (c.toNat + 32) else c

/-- Case-insensitive character comparison. -/
def ciEq (a b : Char) : Bool := lowerChar a == lowerChar b

/-- Match a literal pattern case-insensitively at the start of `s`,
returning the rest of `s` on success. -/
def litCI : Str → Str → Option Str
  | [], s => some s
  | _, [] => none
  | p :: ps, c :: cs => if ciEq p c then litCI ps cs else none

/-- Greedy run of at least one character satisfying `p`
(regex `[...]+` followed by a character outside the class). -/
def class1 (p : Char → Bool) (s : Str) : Option (Str × Str) :=
  let run := s.takeWhile p
  if run.isEmpty then none else some (run, s.dropWhile p)

/-- Greedy `\d+`. -/
def digits1 (s : Str) : Option (Str × Str) := class1 (fun c => c.isDigit) s

/-- The candidate produced when `lit` matches right here (empty gap). -/
def hereCand (lit s : Str) : List (Str × Str) :=
  match litCI lit s with
  | some r => [(([] : Str), r)]
  | none => []

/-- All ways to read `s` as `gap ++ lit ++ rest` with `lit` matched
case-insensitively, listed with the shortest gap first.  This is the
candidate order a regex engine explores for a lazy `.*?` followed by a
literal. -/
def lazySplits (lit : Str) : Str → List (Str × Str)
  | [] => hereCand lit []
  | c :: cs => hereCand lit (c :: cs) ++ (lazySplits lit cs).map (fun q => (c :: q.1, q.2))

/-- Regex search: try the matcher at each start position, left to right. -/
def searchPos {α : Type} (f : Str → Option α) : Str → Option α
  | [] => f []
  | c :: cs =>
    match f (c :: cs) with
    | some a => some a
    | none => searchPos f cs

/-- Split on the newline character, keeping empty segments. -/
def splitOnNl : Str → List Str
  | [] => [[]]
  | c :: cs =>
    if c = nlChar then [] :: splitOnNl cs
    else
      match splitOnNl cs with
      | [] => [[c]]
      | l :: ls => (c :: l) :: ls

/-- Python's `str.splitlines` for newline-separated text: like
`splitOnNl` but without a trailing empty segment. -/
def pySplitlines (s : Str) : List Str :=
  let ls := splitOnNl s
  if ls.getLast? = some ([] : Str) then ls.dropLast else ls

/-- Python whitespace characters stripped by `str.strip()` (ASCII part). -/
def isPySpace (c : Char) : Bool :=
  c = ' ' || c = Char.ofNat 9 || c = nlChar || c = Char.ofNat 13 ||
  c = Char.ofNat 11 || c = Char.ofNat 12

/-- Python's `str.strip()`. -/
def pyStrip (s : Str) : Str :=
  ((s.dropWhile isPySpace).reverse.dropWhile isPySpace).reverse

/-- Python's `str.lstrip('0')`: drop leading zero characters. -/
def lstrip0 (s : Str) : Str := s.dropWhile (fun c => c = '0')

/-- Does `pat` occur at the start of `s`?  (case-sensitive) -/
def startsWithStr : Str → Str → Bool
  | [], _ => true
  | _, [] => false
  | a :: ps, b :: cs => a = b && startsWithStr ps cs

/-- Python's `pat in s` substring test (case-sensitive). -/
def containsSub (pat : Str) : Str → Bool
  | [] => startsWithStr pat []
  | c :: cs => startsWithStr pat (c :: cs) || containsSub pat cs

/-- Case-insensitive substring test (used only to state claims). -/
def containsSubCI (pat s : Str) : Bool :=
  containsSub (pat.map lowerChar) (s.map lowerChar)

/-- Decimal digits of a natural number, e.g. `intStr` below. -/
def natDigits (n : Nat) : Str := Nat.toDigits 10 n

/-- Python's `str(int)`. -/
def intStr (n : Int) : Str :=
  if n < 0 then '-' :: natDigits n.natAbs else natDigits n.toNat

/-- The decimal value of a digit string (the claims' "taken as a decimal
integer"). -/
def decimalVal (s : Str) : Nat :=
  s.foldl (fun acc c => 10 * acc + (c.toNat - 48)) 0

/-- Association-list lookup with the first matching key, modelling a
Python `dict` access (keys are unique by construction in this code). -/
def alookup {β : Type} (k : Str) : List (Str × β) → Option β
  | [] => none
  | (q, v) :: rest => if q = k then some v else alookup k rest

/-- Join a list of strings with newlines, Python's `"\n".join`. -/
def joinNl : List Str → Str
  | [] => []
  | [l] => l
  | l :: ls => l ++ nlChar :: joinNl ls

/-- Join a list of strings with single spaces, Python's `" ".join`. -/
def joinSp : List Str → Str
  | [] => []
  | [l] => l
  | l :: ls => l ++ ' ' :: joinSp ls

-- ### Bitfield decoder (`get_bit_status`, diag_tool_logic.py:310-346)

/-- The value of one hexadecimal digit. -/
def hexVal (c : Char) : Option Nat :=
  if c.isDigit then some (c.toNat - 48)
  else if 'a' ≤ c ∧ c ≤ 'f' then some (c.toNat - 87)
  else if 'A' ≤ c ∧ c ≤ 'F' then some (c.toNat - 55)
  else none

/-- Parse a nonempty string of hexadecimal digits. -/
def hexDigits (s : Str) : Option Nat :=
  if s = [] then none
  else s.foldlM (fun acc c => (hexVal c).map (fun v => 16 * acc + v)) 0

/-- Python's `int(s, 16)`, modelled on its domain of use here: an optional
`0x`/`0X` prefix followed by hexadecimal digits (no sign, whitespace or
underscores, which never reach this call in the source). -/
def pyIntHex (s : Str) : Option Nat :=
  match s with
  | c0 :: c1 :: rest =>
    if c0 = '0' ∧ (c1 = 'x' ∨ c1 = 'X') then hexDigits rest else hexDigits s
  | _ => hexDigits s

/-- Python's `s.replace('0x', '')`: delete every (left-to-right,
non-overlapping) occurrence of `0x`. -/
def replace0x : Str → Str
  | [] => []
  | [c] => [c]
  | c :: d :: rest =>
    if c = '0' ∧ d = 'x' then replace0x rest else c :: replace0x (d :: rest)

/-- The `specific_bits_map` of the source: fixed labels for four bits. -/
def specificBitsMap (i : Nat) : Option Str :=
  if i = 3 then some (r"Enables HR").toList
  else if i = 24 then some (r"Double button to turn off").toList
  else if i = 28 then some (r"Enables ECH heartrate pickup").toList
  else if i = 30 then some (r"Enables BLE HR monitoring").toList
  else none

/-- `"ON" if is_set else "OFF"` where `is_set = (flags >> i) & 1`
(Python truthiness: nonzero). -/
def statusStr (flags i : Nat) : Str :=
  if (flags >>> i) &&& 1 ≠ 0 then (r"ON").toList else (r"OFF").toList

/-- One row of the all-bits table. -/
structure BitEntry where
  bit : Nat
  status : Str
  description : Str
deriving DecidableEq

/-- The body of the `for i in range(64)` loop of `get_bit_status`: builds
the named-subset dict (insertion order 3, 24, 28, 30) and the 64-row
table, appending one row per index. -/
def bitLoop (flags : Nat) : List Nat → List (Str × Str) × List BitEntry
  | [] => ([], [])
  | i :: is =>
    let st := statusStr flags i
    let desc :=
      match specificBitsMap i with
      | some d => d
      | none => (r"Bit ").toList ++ natDigits i
    let rest := bitLoop flags is
    (match specificBitsMap i with
     | some _ => (natDigits i, st) :: rest.1
     | none => rest.1,
     ⟨i, st, desc⟩ :: rest.2)

/-- The decoder applied to an already-parsed flags integer. -/
def decodeFlags (flags : Nat) : List (Str × Str) × List BitEntry :=
  bitLoop flags (List.range 64)

/-- `get_bit_status`: parse the `Flags=0x...` hex string and decode all
64 bits; a conversion failure yields the empty results. -/
def get_bit_status (flagsHex : Str) : List (Str × Str) × List BitEntry :=
  match pyIntHex (replace0x flagsHex) with
  | none => ([], [])
  | some n => decodeFlags n

-- ### HR-mode classification (`get_current_hr_mode`, lines 348-366)

/-- `get_current_hr_mode`: first-match decision chain over the named
subset's entries for bits 3, 28 and 30.  (The source's `except` branch
returning `"Error"` is unreachable: dictionary `get` and `==` cannot
fault, so it is not part of the embedding.) -/
def get_current_hr_mode (bitStatus : List (Str × Str)) : Str :=
  let b3 := alookup (r"3").toList bitStatus
  let b28 := alookup (r"28").toList bitStatus
  let b30 := alookup (r"30").toList bitStatus
  if b3 = some (r"ON").toList ∧ b28 = some (r"OFF").toList ∧ b30 = some (r"OFF").toList then
    (r"Polar Strap").toList
  else if b3 = some (r"ON").toList ∧ b28 = some (r"ON").toList ∧ b30 = some (r"OFF").toList then
    (r"Integrated HR").toList
  else if b3 = some (r"ON").toList ∧ b28 = some (r"OFF").toList ∧ b30 = some (r"ON").toList then
    (r"Bluetooth HR").toList
  else
    (r"Unknown/Custom").toList

-- ### Claim-side companions for the decoder claims

/-- Direct bit-by-bit computation of claim C2/C9: bit `i` of `flags` is ON
exactly when `(flags >> i) & 1 == 1`. -/
def onOff (flags i : Nat) : Str :=
  if (flags >>> i) &&& 1 = 1 then (r"ON").toList else (r"OFF").toList

/-- The label claim C2 assigns to index `i`. -/
def labelSpec (i : Nat) : Str :=
  if i = 3 then (r"Enables HR").toList
  else if i = 24 then (r"Double button to turn off").toList
  else if i = 28 then (r"Enables ECH heartrate pickup").toList
  else if i = 30 then (r"Enables BLE HR monitoring").toList
  else (r"Bit ").toList ++ natDigits i

/-- The 64-entry table claim C2 describes. -/
def tableSpec (flags : Nat) : List BitEntry :=
  (List.range 64).map (fun i => ⟨i, onOff flags i, labelSpec i⟩)

/-- The named subset claim C2 describes: exactly the indices 3, 24, 28,
30 with their bit-by-bit states. -/
def subsetSpec (flags : Nat) : List (Str × Str) :=
  [(natDigits 3, onOff flags 3), (natDigits 24, onOff flags 24),
   (natDigits 28, onOff flags 28), (natDigits 30, onOff flags 30)]

/-- The decision table of claim C1, a function of bits 3, 28, 30 only. -/
def hrModeSpec (b3 b28 b30 : Bool) : Str :=
  if b3 && !b28 && !b30 then (r"Polar Strap").toList
  else if b3 && b28 && !b30 then (r"Integrated HR").toList
  else if b3 && !b28 && b30 then (r"Bluetooth HR").toList
  else (r"Unknown/Custom").toList

/-- Claim-side bit test, the claims' `(flags >> i) & 1 == 1`. -/
def bitON (flags i : Nat) : Bool := (flags >>> i) &&& 1 == 1

-- ### Supporting lemmas for the decoder

theorem and_one_cases (m : Nat) : m &&& 1 = 0 ∨ m &&& 1 = 1 := by
  have h : m &&& 1 = m % 2 := Nat.and_one_is_mod m
  rcases Nat.mod_two_eq_zero_or_one m with h0 | h1
  · exact Or.inl (h.trans h0)
  · exact Or.inr (h.trans h1)

theorem statusStr_eq_onOff (flags i : Nat) : statusStr flags i = onOff flags i := by
  unfold statusStr onOff
  rcases and_one_cases (flags >>> i) with h | h <;> simp [h]

theorem bitLoop_closed (flags : Nat) (is : List Nat) :
    bitLoop flags is =
      (is.filterMap (fun i =>
         match specificBitsMap i with
         | some _ => some (natDigits i, statusStr flags i)
         | none => none),
       is.map (fun i =>
         ⟨i, statusStr flags i,
          match specificBitsMap i with
          | some d => d
          | none => (r"Bit ").toList ++ natDigits i⟩)) := by
  induction is with
  | nil => rfl
  | cons i is ih =>
    simp only [bitLoop, ih, List.filterMap_cons, List.map_cons]
    cases h : specificBitsMap i <;> simp [h]

theorem range64_eq : List.range 64 =
    [0, 1, 2, 3, 4, 5, 6, 7, 8, 9, 10, 11, 12, 13, 14, 15, 16, 17, 18, 19,
     20, 21, 22, 23, 24, 25, 26, 27, 28, 29, 30, 31, 32, 33, 34, 35, 36, 37,
     38, 39, 40, 41, 42, 43, 44, 45, 46, 47, 48, 49, 50, 51, 52, 53, 54, 55,
     56, 57, 58, 59, 60, 61, 62, 63] := by rfl

theorem decodeFlags_fst (flags : Nat) :
    (decodeFlags flags).1 = subsetSpec flags := by
  rw [decodeFlags, bitLoop_closed]
  rw [range64_eq]
  simp only [List.filterMap_cons, List.filterMap_nil, specificBitsMap]
  norm_num [subsetSpec, statusStr_eq_onOff]

theorem desc_eq_labelSpec (i : Nat) :
    (match specificBitsMap i with
     | some d => d
     | none => (r"Bit ").toList ++ natDigits i) = labelSpec i := by
  unfold specificBitsMap labelSpec
  by_cases h3 : i = 3
  · simp [h3]
  · by_cases h24 : i = 24
    · simp [h3, h24]
    · by_cases h28 : i = 28
      · simp [h3, h24, h28]
      · by_cases h30 : i = 30 <;> simp [h3, h24, h28, h30]

theorem decodeFlags_snd (flags : Nat) :
    (decodeFlags flags).2 = tableSpec flags := by
  rw [decodeFlags, bitLoop_closed, tableSpec]
  apply List.map_congr_left
  intro i _
  rw [statusStr_eq_onOff, desc_eq_labelSpec]

-- ### Lemmas about the hex-string parse path

theorem foldlM_hex_chars :
    ∀ (s : Str) (acc n : Nat),
      s.foldlM (fun acc c => (hexVal c).map (fun v => 16 * acc + v)) acc = some n →
      ∀ c ∈ s, (hexVal c).isSome := by
  intro s
  induction s with
  | nil => intro acc n _ c hc; cases hc
  | cons d ds ih =>
    intro acc n h c hc
    rw [List.foldlM_cons] at h
    cases hv : hexVal d with
    | none => rw [hv] at h; simp at h
    | some v =>
      rw [hv] at h
      simp only [Option.map_some', Option.some_bind] at h
      rcases List.mem_cons.mp hc with rfl | hmem
      · rw [hv]; rfl
      · exact ih (16 * acc + v) n h c hmem

theorem hexDigits_chars {s : Str} {n : Nat} (h : hexDigits s = some n) :
    ∀ c ∈ s, (hexVal c).isSome := by
  unfold hexDigits at h
  by_cases hs : s = []
  · simp [hs] at h
  · rw [if_neg hs] at h
    exact foldlM_hex_chars s 0 n h

theorem hexDigits_no_x {s : Str} {n : Nat} (h : hexDigits s = some n) :
    ∀ c ∈ s, c ≠ 'x' ∧ c ≠ 'X' := by
  intro c hc
  have hsome := hexDigits_chars h c hc
  constructor <;> rintro rfl <;> simp [hexVal] at hsome

theorem replace0x_no_x : ∀ s : Str, (∀ c ∈ s, c ≠ 'x') → replace0x s = s
  | [], _ => rfl
  | [_], _ => rfl
  | c :: d :: rest, h => by
    have hd : d ≠ 'x' := h d (by simp)
    unfold replace0x
    rw [if_neg (by rintro ⟨-, hdx⟩; exact hd hdx)]
    rw [replace0x_no_x (d :: rest) (fun e he => h e (List.mem_cons_of_mem c he))]

theorem pyIntHex_plain : ∀ s : Str, (∀ c ∈ s, c ≠ 'x' ∧ c ≠ 'X') →
    pyIntHex s = hexDigits s
  | [], _ => rfl
  | [_], _ => rfl
  | c0 :: c1 :: rest, h => by
    have h1 := h c1 (by simp)
    show (if c0 = '0' ∧ (c1 = 'x' ∨ c1 = 'X') then hexDigits rest
          else hexDigits (c0 :: c1 :: rest)) = hexDigits (c0 :: c1 :: rest)
    rw [if_neg (by rintro ⟨-, hx | hX⟩; exacts [h1.1 hx, h1.2 hX])]

/-- The decoder of a `0x`-prefixed hex-digit string reduces to decoding
the parsed integer. -/
theorem get_bit_status_hex {ds : Str} {n : Nat} (h : hexDigits ds = some n) :
    get_bit_status ('0' :: 'x' :: ds) = decodeFlags n := by
  have hnox : ∀ c ∈ ds, c ≠ 'x' := fun c hc => (hexDigits_no_x h c hc).1
  have hrep : replace0x ('0' :: 'x' :: ds) = ds := by
    unfold replace0x
    rw [if_pos ⟨rfl, rfl⟩]
    exact replace0x_no_x ds hnox
  unfold get_bit_status
  rw [hrep, pyIntHex_plain ds (hexDigits_no_x h), h]

-- ### Claims C2, C9, C1

/-- C2: for every flags value given as a `0x`-prefixed hexadecimal string
that parses as an unsigned integer `n`, the bitfield decoder returns the
64-entry table with entry `i` ON exactly when `(n >> i) & 1 == 1`, the
four fixed labels at indices 3, 24, 28, 30, generic `Bit N` labels
elsewhere, and the named subset with exactly those four indices and the
same states. -/
theorem C2_bit_table_of_hex (ds : Str) (n : Nat) (h : hexDigits ds = some n) :
    get_bit_status ('0' :: 'x' :: ds) = (subsetSpec n, tableSpec n) := by
  rw [get_bit_status_hex h]
  exact Prod.ext (decodeFlags_fst n) (decodeFlags_snd n)

/-- C2 witness: decoding the concrete string `0x1f` (value 31). -/
theorem C2_bit_table_of_hex_witness :
    hexDigits (r"1f").toList = some 31 ∧
    get_bit_status ('0' :: 'x' :: (r"1f").toList) = (subsetSpec 31, tableSpec 31) :=
  ⟨by rfl, C2_bit_table_of_hex (r"1f").toList 31 (by rfl)⟩

/-- C9: for every 64-bit flags value `F` and each index `i` in
{3, 24, 28, 30}, the named subset returned by the decoder agrees with the
64-entry bit table, and both equal the direct bit-by-bit computation
`(F >> i) & 1`. -/
theorem C9_subset_agrees_table (F : Nat) (hF : F < 2 ^ 64) (i : Nat)
    (hi : i ∈ [3, 24, 28, 30]) :
    alookup (natDigits i) (decodeFlags F).1 = some (onOff F i) ∧
    (decodeFlags F).2.get? i = some ⟨i, onOff F i, labelSpec i⟩ := by
  rw [decodeFlags_fst, decodeFlags_snd, tableSpec, range64_eq]
  have d3 : natDigits 3 = ['3'] := rfl
  have d24 : natDigits 24 = ['2', '4'] := rfl
  have d28 : natDigits 28 = ['2', '8'] := rfl
  have d30 : natDigits 30 = ['3', '0'] := rfl
  fin_cases hi <;>
    exact ⟨by simp [subsetSpec, alookup, d3, d24, d28, d30],
           by simp [List.get?]⟩

/-- C9 witness at `F = 5`, `i = 3`. -/
theorem C9_subset_agrees_table_witness :
    (5 : Nat) < 2 ^ 64 ∧ 3 ∈ [3, 24, 28, 30] ∧
    (alookup (natDigits 3) (decodeFlags 5).1 = some (onOff 5 3) ∧
     (decodeFlags 5).2.get? 3 = some ⟨3, onOff 5 3, labelSpec 3⟩) :=
  ⟨by norm_num, by decide, C9_subset_agrees_table 5 (by norm_num) 3 (by decide)⟩

/-- C1: for every bit-status mapping produced by the decoder (i.e. when
the flags string parses, yielding the integer `n`), the derived
heart-rate mode is the first-match decision table over bits 3, 28, 30
alone: ON/OFF/OFF ↦ Polar Strap, ON/ON/OFF ↦ Integrated HR,
ON/OFF/ON ↦ Bluetooth HR, all five remaining combinations ↦
Unknown/Custom. -/
theorem C1_hr_mode_table (flagsHex : Str) (n : Nat)
    (h : pyIntHex (replace0x flagsHex) = some n) :
    get_current_hr_mode (get_bit_status flagsHex).1 =
      hrModeSpec (bitON n 3) (bitON n 28) (bitON n 30) := by
  have hbs : (get_bit_status flagsHex).1 = subsetSpec n := by
    unfold get_bit_status
    rw [h]
    exact decodeFlags_fst n
  rw [hbs]
  have d3 : natDigits 3 = ['3'] := rfl
  have d24 : natDigits 24 = ['2', '4'] := rfl
  have d28 : natDigits 28 = ['2', '8'] := rfl
  have d30 : natDigits 30 = ['3', '0'] := rfl
  unfold get_current_hr_mode subsetSpec
  rcases and_one_cases (n >>> 3) with h3 | h3 <;>
    rcases and_one_cases (n >>> 28) with h28 | h28 <;>
      rcases and_one_cases (n >>> 30) with h30 | h30 <;>
        simp [alookup, d3, d24, d28, d30, onOff, bitON, hrModeSpec, h3, h28, h30]

/-- C1 witness: flags `0x8` (bit 3 set only) classifies as Polar Strap. -/
theorem C1_hr_mode_table_witness :
    pyIntHex (replace0x ('0' :: 'x' :: (r"8").toList)) = some 8 ∧
    get_current_hr_mode (get_bit_status ('0' :: 'x' :: (r"8").toList)).1 =
      hrModeSpec (bitON 8 3) (bitON 8 28) (bitON 8 30) :=
  ⟨by rfl, C1_hr_mode_table ('0' :: 'x' :: (r"8").toList) 8 (by rfl)⟩

-- ### 6.5 GHz radio config (`get_6_5ghz_config`, diag_tool_logic.py:413-443)

/-- The three captured groups of `GSP_PATTERN`. -/
structure GspData where
  id : Str
  tx : Str
  rx : Str
deriving DecidableEq

/-- `GSP_PATTERN` (`ID:(\d+),.*?txCode=(\d+),rxCode=(\d+)`, IGNORECASE)
matched at the start of `s`, with the lazy gap's backtracking. -/
def gspAt (s : Str) : Option GspData := do
  let r1 ← litCI (r"id:").toList s
  let (idS, r2) ← digits1 r1
  let r3 ← litCI (r",").toList r2
  (lazySplits (r"txcode=").toList r3).findSome? (fun q => do
    let (tx, r5) ← digits1 q.2
    let r6 ← litCI (r",rxcode=").toList r5
    let (rx, _) ← digits1 r6
    some ⟨idS, tx, rx⟩)

/-- `re.search` with `GSP_PATTERN`. -/
def gspSearch : Str → Option GspData := searchPos gspAt

/-- One record of the `configs` list built by `get_6_5ghz_config`. -/
structure GhzConfig where
  id : Str
  config_type : Str
  raw : Str
deriving DecidableEq

/-- Per-line body of `get_6_5ghz_config`: on a regex match, classify by
literal string comparison of the captured tx/rx digit strings
(`tx == '9' and rx == '9'`, etc.) and emit the record. -/
def ghzConfigOfLine (line : Str) : Option GhzConfig :=
  (gspSearch line).map (fun d =>
    let ct :=
      if d.tx = (r"9").toList ∧ d.rx = (r"9").toList then
        (r"Default (tx=9, rx=9)").toList
      else if d.tx = (r"3").toList ∧ d.rx = (r"3").toList then
        (r"Alternative (tx=3, rx=3)").toList
      else
        (r"Unknown (tx=").toList ++ d.tx ++ (r", rx=").toList ++ d.rx ++ [')']
    ⟨lstrip0 d.id, ct, pyStrip line⟩)

/-- The parsing loop of `get_6_5ghz_config` over the collaborator's
stdout. -/
def get_6_5ghz_config (stdout : Str) : List GhzConfig :=
  (pySplitlines stdout).filterMap ghzConfigOfLine

/-- The classification the code actually applies (claim C3 as amended):
literal digit-string comparison of the captured tx/rx fields. -/
def classifyLiteral (tx rx : Str) : Str :=
  if tx = ['9'] ∧ rx = ['9'] then (r"Default (tx=9, rx=9)").toList
  else if tx = ['3'] ∧ rx = ['3'] then (r"Alternative (tx=3, rx=3)").toList
  else (r"Unknown (tx=").toList ++ tx ++ (r", rx=").toList ++ rx ++ [')']

/-- C3 counterexample: the line `ID:1,txCode=09,rxCode=09` is matched by
the parser and both codes equal the decimal integer 9, yet the derived
classification is `Unknown (tx=09, rx=09)`, not Default as the claim
requires: the code compares the captured digit strings literally, not
their decimal values. -/
theorem C3_decimal_classification_cex :
    gspSearch (r"ID:1,txCode=09,rxCode=09").toList =
      some ⟨['1'], ['0', '9'], ['0', '9']⟩ ∧
    decimalVal ['0', '9'] = 9 ∧ decimalVal ['9'] = 9 ∧
    (ghzConfigOfLine (r"ID:1,txCode=09,rxCode=09").toList).map GhzConfig.config_type ≠
      some (r"Default (tx=9, rx=9)").toList ∧
    (ghzConfigOfLine (r"ID:1,txCode=09,rxCode=09").toList).map GhzConfig.config_type =
      some (r"Unknown (tx=09, rx=09)").toList := by
  exact ⟨by rfl, by rfl, by rfl, by decide, by rfl⟩

/-- C3 amended: for every radio-config line matched by the parser, the
derived classification is a pure function of the literal captured
transmit/receive digit strings: tx="9" and rx="9" gives Default, tx="3"
and rx="3" gives Alternative, and any other pair gives Unknown carrying
the literal tx/rx values for display (so a matched line with tx code 09
and rx code 09 classifies as Unknown, since "09" is not the string "9"). -/
theorem C3_literal_classification (line : Str) (d : GspData)
    (h : gspSearch line = some d) :
    (ghzConfigOfLine line).map GhzConfig.config_type =
      some (classifyLiteral d.tx d.rx) := by
  unfold ghzConfigOfLine classifyLiteral
  rw [h]
  rfl

/-- C3 amended witness: a matched line with tx=9, rx=9 classifies as
Default. -/
theorem C3_literal_classification_witness :
    gspSearch (r"ID:1,txCode=9,rxCode=9").toList = some ⟨['1'], ['9'], ['9']⟩ ∧
    (ghzConfigOfLine (r"ID:1,txCode=9,rxCode=9").toList).map GhzConfig.config_type =
      some (classifyLiteral ['9'] ['9']) :=
  ⟨by rfl,
   C3_literal_classification (r"ID:1,txCode=9,rxCode=9").toList ⟨['1'], ['9'], ['9']⟩ (by rfl)⟩

-- ### Session listing (`list_sessions`, diag_tool_logic.py:494-521)

/-- The captures of `SI_START_PATTERN` (`Id:(\d+) Total Sessions:(\d+)`,
IGNORECASE). -/
structure SIStart where
  id : Str
  total : Str
deriving DecidableEq

/-- `SI_START_PATTERN` matched at the start of `s`. -/
def siStartAt (s : Str) : Option SIStart := do
  let r1 ← litCI (r"id:").toList s
  let (idS, r2) ← digits1 r1
  let r3 ← litCI (r" total sessions:").toList r2
  let (tot, _) ← digits1 r3
  some ⟨idS, tot⟩

/-- `re.search` with `SI_START_PATTERN`. -/
def siStartSearch : Str → Option SIStart := searchPos siStartAt

/-- One parsed session line: the groupdict of `SI_SESSION_PATTERN` plus
the `Select` column the source adds for the UI (always `False` here). -/
structure SessionRec where
  num : Str
  length : Str
  duration : Str
  time : Str
  select : Bool
deriving DecidableEq

/-- `SI_SESSION_PATTERN`
(`Session (\d+): length=(\d+),Duration=(\d+) secs,createTime (.*?) UTC`,
IGNORECASE) matched at the start of `s`; the lazy `(.*?)` takes the
shortest gap before ` UTC`. -/
def siSessionAt (s : Str) : Option SessionRec := do
  let r1 ← litCI (r"session ").toList s
  let (num, r2) ← digits1 r1
  let r3 ← litCI (r": length=").toList r2
  let (len, r4) ← digits1 r3
  let r5 ← litCI (r",duration=").toList r4
  let (dur, r6) ← digits1 r5
  let r7 ← litCI (r" secs,createtime ").toList r6
  (lazySplits (r" utc").toList r7).findSome? (fun q => some ⟨num, len, dur, q.1, false⟩)

/-- `re.search` with `SI_SESSION_PATTERN`. -/
def siSessionSearch : Str → Option SessionRec := searchPos siSessionAt

/-- The `sessions_by_device` dictionary: insertion-ordered association
list with unique keys. -/
abbrev SessionDict := List (Str × List SessionRec)

/-- `sessions_by_device[k].append(rec)` for an existing key `k` (the
source only appends under keys created by a preceding header line). -/
def dictAppendAt (k : Str) (v : SessionRec) : SessionDict → SessionDict
  | [] => []
  | (q, vs) :: rest =>
    if q = k then (q, vs ++ [v]) :: rest else (q, vs) :: dictAppendAt k v rest

/-- One iteration of the `for line in stdout.splitlines()` loop of
`list_sessions`: a header match updates the current device id (stripping
leading zeros) and ensures its, possibly empty, group exists; otherwise a
session match is appended to the current group when the current id is
truthy (present and nonempty). -/
def sessionStep (st : SessionDict × Option Str) (line : Str) : SessionDict × Option Str :=
  match siStartSearch line with
  | some h =>
    let k := lstrip0 h.id
    (if (alookup k st.1).isSome then st.1 else st.1 ++ [(k, [])], some k)
  | none =>
    match siSessionSearch line, st.2 with
    | some recd, some k => if k ≠ [] then (dictAppendAt k recd st.1, st.2) else st
    | _, _ => st

/-- The parsing loop of `list_sessions` over the collaborator's stdout. -/
def list_sessions (stdout : Str) : SessionDict :=
  ((pySplitlines stdout).foldl sessionStep ([], none)).1

/-- Claim C4's assignment of session lines to device `d`: scan the lines
in order tracking the current device id, and collect, in input order, the
records of the session lines encountered while `d` is the active
(current and nonempty) device id. -/
def assignedSessions (d : Str) : Option Str → List Str → List SessionRec
  | _, [] => []
  | cur, l :: ls =>
    match siStartSearch l with
    | some h => assignedSessions d (some (lstrip0 h.id)) ls
    | none =>
      match siSessionSearch l, cur with
      | some recd, some k =>
        (if k = d ∧ k ≠ [] then [recd] else []) ++ assignedSessions d cur ls
      | _, _ => assignedSessions d cur ls

/-- The stripped ids of the header lines, in input order. -/
def headerIds (ls : List Str) : List Str :=
  ls.filterMap (fun l => (siStartSearch l).map (fun h => lstrip0 h.id))

theorem alookup_append_single {β : Type} (d k : Str) (v : β) (D : List (Str × β)) :
    alookup d (D ++ [(k, v)]) =
      match alookup d D with
      | some w => some w
      | none => if k = d then some v else none := by
  induction D with
  | nil => simp [alookup]
  | cons p rest ih =>
    rcases p with ⟨q, w⟩
    by_cases hq : q = d <;> simp [alookup, hq, ih]

theorem alookup_dictAppendAt (d k : Str) (v : SessionRec) (D : SessionDict) :
    alookup d (dictAppendAt k v D) =
      if k = d then (alookup d D).map (fun g => g ++ [v]) else alookup d D := by
  induction D with
  | nil => by_cases h : k = d <;> simp [dictAppendAt, alookup, h]
  | cons p rest ih =>
    rcases p with ⟨q, vs⟩
    by_cases hqk : q = k
    · subst hqk
      by_cases hqd : q = d
      · subst hqd
        simp [dictAppendAt, alookup]
      · simp [dictAppendAt, alookup, hqd, Ne.symm hqd]
    · by_cases hqd : q = d
      · subst hqd
        have hkq : ¬k = q := fun h => hqk h.symm
        simp [dictAppendAt, alookup, hqk, hkq]
      · simp [dictAppendAt, alookup, hqk, hqd, ih]

theorem foldl_sessionStep_lookup :
    ∀ (ls : List Str) (D : SessionDict) (cur : Option Str) (d : Str),
      (cur = some d → d ≠ [] → (alookup d D).isSome) →
      alookup d (ls.foldl sessionStep (D, cur)).1 =
        (match alookup d D with
         | some g => some (g ++ assignedSessions d cur ls)
         | none =>
           if d ∈ headerIds ls then some (assignedSessions d cur ls) else none) := by
  intro ls
  induction ls with
  | nil =>
    intro D cur d _
    simp only [List.foldl_nil, headerIds, List.filterMap_nil, List.not_mem_nil, if_false]
    cases h : alookup d D <;> simp [assignedSessions]
  | cons l ls ih =>
    intro D cur d hinv
    rw [List.foldl_cons]
    cases hstart : siStartSearch l with
    | some h =>
      have hstep : sessionStep (D, cur) l =
          (if (alookup (lstrip0 h.id) D).isSome then D
           else D ++ [(lstrip0 h.id, [])], some (lstrip0 h.id)) := by
        simp [sessionStep, hstart]
      set k := lstrip0 h.id with hk
      have hassign : assignedSessions d cur (l :: ls) = assignedSessions d (some k) ls := by
        simp [assignedSessions, hstart]
      have hhead : headerIds (l :: ls) = k :: headerIds ls := by
        simp [headerIds, List.filterMap_cons, hstart]
      rw [hstep, hassign, hhead]
      set D' := if (alookup k D).isSome then D else D ++ [(k, [])] with hD'
      have hinv' : some k = some d → d ≠ [] → (alookup d D').isSome := by
        intro heq _
        have hkd : k = d := Option.some.inj heq
        subst hkd
        rw [hD']
        by_cases hs : (alookup k D).isSome
        · rw [if_pos hs]; exact hs
        · rw [if_neg hs, alookup_append_single]
          cases halo : alookup k D with
          | some g => rw [halo] at hs; simp at hs
          | none => simp
      rw [ih D' (some k) d hinv']
      by_cases hkd : k = d
      · subst hkd
        cases halo : alookup k D with
        | some g =>
          have hD'k : alookup k D' = some g := by
            rw [hD', if_pos (by rw [halo]; rfl)]
            exact halo
          simp [hD'k, halo]
        | none =>
          have hD'k : alookup k D' = some [] := by
            rw [hD', if_neg (by rw [halo]; simp), alookup_append_single, halo]
            simp
          simp [hD'k, halo, List.mem_cons]
      · have hdk : ¬d = k := fun hq => hkd hq.symm
        have hD'd : alookup d D' = alookup d D := by
          rw [hD']
          by_cases hs : (alookup k D).isSome
          · rw [if_pos hs]
          · rw [if_neg hs, alookup_append_single]
            cases halo : alookup d D with
            | some g => simp
            | none => simp [hkd]
        rw [hD'd]
        cases halo : alookup d D with
        | some g => simp [halo]
        | none => simp [halo, List.mem_cons, hdk]
    | none =>
      cases hsess : siSessionSearch l with
      | none =>
        have hstep : sessionStep (D, cur) l = (D, cur) := by
          cases cur <;> simp [sessionStep, hstart, hsess]
        have hassign : assignedSessions d cur (l :: ls) = assignedSessions d cur ls := by
          cases cur <;> simp [assignedSessions, hstart, hsess]
        have hhead : headerIds (l :: ls) = headerIds ls := by
          simp [headerIds, List.filterMap_cons, hstart]
        rw [hstep, hassign, hhead, ih D cur d hinv]
      | some recd =>
        cases cur with
        | none =>
          have hstep : sessionStep (D, none) l = (D, none) := by
            simp [sessionStep, hstart, hsess]
          have hassign : assignedSessions d none (l :: ls) = assignedSessions d none ls := by
            simp [assignedSessions, hstart, hsess]
          have hhead : headerIds (l :: ls) = headerIds ls := by
            simp [headerIds, List.filterMap_cons, hstart]
          rw [hstep, hassign, hhead, ih D none d (by simp)]
        | some k =>
          by_cases hkE : k = []
          · subst hkE
            have hstep : sessionStep (D, some []) l = (D, some []) := by
              simp [sessionStep, hstart, hsess]
            have hassign : assignedSessions d (some []) (l :: ls) =
                assignedSessions d (some []) ls := by
              simp [assignedSessions, hstart, hsess]
            have hhead : headerIds (l :: ls) = headerIds ls := by
              simp [headerIds, List.filterMap_cons, hstart]
            rw [hstep, hassign, hhead, ih D (some []) d hinv]
          · have hstep : sessionStep (D, some k) l = (dictAppendAt k recd D, some k) := by
              simp [sessionStep, hstart, hsess, hkE]
            have hassign : assignedSessions d (some k) (l :: ls) =
                (if k = d ∧ k ≠ [] then [recd] else []) ++ assignedSessions d (some k) ls := by
              simp [assignedSessions, hstart, hsess]
            have hhead : headerIds (l :: ls) = headerIds ls := by
              simp [headerIds, List.filterMap_cons, hstart]
            have hinv' : some k = some d → d ≠ [] →
                (alookup d (dictAppendAt k recd D)).isSome := by
              intro heq hd
              have hkd : k = d := Option.some.inj heq
              subst hkd
              rw [alookup_dictAppendAt, if_pos rfl]
              have hbase := hinv heq hd
              cases halo : alookup k D with
              | none => rw [halo] at hbase; simp at hbase
              | some g => simp [halo]
            rw [hstep, hassign, hhead, ih (dictAppendAt k recd D) (some k) d hinv',
              alookup_dictAppendAt]
            by_cases hkd : k = d
            · subst hkd
              rw [if_pos rfl]
              cases halo : alookup k D with
              | none =>
                exfalso
                have hbase := hinv rfl hkE
                rw [halo] at hbase
                simp at hbase
              | some g =>
                simp [halo, hkE, List.append_assoc]
            · rw [if_neg hkd]
              cases halo : alookup d D with
              | some g => simp [halo, hkd]
              | none => simp [halo, hkd]

/-- C4: the session assembler maps exactly the (zero-stripped) header ids
to groups; the group of `d` is the ordered sequence of records of the
session lines encountered while `d` was the active device id.  Hence a
session line before any header is dropped (no device is active), each
header ensures an initially empty group, and repeated headers for the
same id accumulate into one group rather than resetting it. -/
theorem C4_session_assembler (stdout d : Str) :
    alookup d (list_sessions stdout) =
      (if d ∈ headerIds (pySplitlines stdout) then
         some (assignedSessions d none (pySplitlines stdout))
       else none) := by
  unfold list_sessions
  rw [foldl_sessionStep_lookup (pySplitlines stdout) [] none d (by simp)]
  rfl

/-- `assignedSessions` never collects anything for the empty device id: an
empty current id is not active. -/
theorem assignedSessions_empty_id :
    ∀ (ls : List Str) (cur : Option Str), assignedSessions [] cur ls = [] := by
  intro ls
  induction ls with
  | nil => intro cur; rfl
  | cons l ls ih =>
    intro cur
    cases hstart : siStartSearch l with
    | some h => simp [assignedSessions, hstart, ih]
    | none =>
      cases hsess : siSessionSearch l with
      | none => cases cur <;> simp [assignedSessions, hstart, hsess, ih]
      | some recd =>
        cases cur with
        | none => simp [assignedSessions, hstart, hsess, ih]
        | some k => simp [assignedSessions, hstart, hsess, ih]

/-- C10: a header line whose device identifier is all zeros normalizes to
the empty-string key: a group keyed by `""` is created, and it is always
empty on output, because the falsy empty current id never lets a session
line be appended. -/
theorem C10_all_zero_header (stdout l : Str) (h : SIStart)
    (hl : l ∈ pySplitlines stdout) (hs : siStartSearch l = some h)
    (hz : ∀ c ∈ h.id, c = '0') :
    alookup [] (list_sessions stdout) = some [] := by
  have hk : lstrip0 h.id = [] := by
    unfold lstrip0
    rw [List.dropWhile_eq_nil_iff]
    intro x hx
    simp [hz x hx]
  have hmem : ([] : Str) ∈ headerIds (pySplitlines stdout) := by
    unfold headerIds
    exact List.mem_filterMap.mpr ⟨l, hl, by rw [hs]; simp [hk]⟩
  unfold list_sessions
  rw [foldl_sessionStep_lookup (pySplitlines stdout) [] none [] (by simp)]
  simp only [alookup, if_pos hmem, assignedSessions_empty_id]

/-- C10 witness: a concrete listing whose header id is `000`; the
assembled dictionary has the empty-string group and it is empty even
though a session line follows the header. -/
theorem C10_all_zero_header_witness :
    ((r"Id:000 Total Sessions:1").toList ∈
       pySplitlines ((r"Id:000 Total Sessions:1").toList ++ nlChar ::
         (r"Session 1: length=10,Duration=5 secs,createTime X UTC").toList)) ∧
    siStartSearch (r"Id:000 Total Sessions:1").toList = some ⟨['0', '0', '0'], ['1']⟩ ∧
    alookup [] (list_sessions ((r"Id:000 Total Sessions:1").toList ++ nlChar ::
      (r"Session 1: length=10,Duration=5 secs,createTime X UTC").toList)) = some [] :=
  ⟨by decide, by rfl,
   C10_all_zero_header
     ((r"Id:000 Total Sessions:1").toList ++ nlChar ::
       (r"Session 1: length=10,Duration=5 secs,createTime X UTC").toList)
     (r"Id:000 Total Sessions:1").toList
     ⟨['0', '0', '0'], ['1']⟩ (by decide) (by rfl) (by decide)⟩

-- ### Battery degradation summary (`parse_debug_data`, diag_tool_logic.py:214-271)

/-- One matched battery telemetry point: time and voltage as exact
rationals standing for the source's parsed floats, and the percentage
(captured by `(\d+)`) as a natural number. -/
structure BatteryPoint where
  time : ℚ
  voltage : ℚ
  percent : ℕ
deriving DecidableEq

/-- The summary dictionary built by `parse_debug_data`. -/
structure BatterySummary where
  first_reading : Str
  last_reading : Str
  time_elapsed_str : Str
  percent_drop : Str
deriving DecidableEq

/-- The `N/A` placeholder summary returned when no point matched. -/
def naSummary : BatterySummary :=
  ⟨(r"N/A").toList, (r"N/A").toList, (r"N/A").toList, (r"N/A").toList⟩

/-- The last element of a nonempty list (`matches[-1]`). -/
def lastPoint (p : BatteryPoint) : List BatteryPoint → BatteryPoint
  | [] => p
  | q :: qs => lastPoint q qs

/-- Python's `f"{n:02}"` for an integer: pad to width 2 with `0` (a sign
counts toward the width, as in Python). -/
def pad2 (n : Int) : Str :=
  let s := intStr n
  if s.length < 2 then '0' :: s else s

/-- The summary computation of `parse_debug_data` over the ordered
sequence of matched battery points: the `N/A` summary on no data;
otherwise first and last percentage as integer percents, the elapsed
seconds floor-divided into minutes and rendered `HH:MM` with integer
floor division and modulus by 60, and the drop `first - last` with its
sign. -/
def parse_debug_summary : List BatteryPoint → BatterySummary
  | [] => naSummary
  | p0 :: rest =>
    ⟨natDigits p0.percent ++ ['%'],
     natDigits (lastPoint p0 rest).percent ++ ['%'],
     pad2 (Int.fdiv ⌊((lastPoint p0 rest).time - p0.time) / 60⌋ 60) ++
       ':' :: pad2 (Int.fmod ⌊((lastPoint p0 rest).time - p0.time) / 60⌋ 60),
     intStr ((p0.percent : Int) - ((lastPoint p0 rest).percent : Int)) ++ ['%']⟩

/-- Claim C5's elapsed time in whole minutes: the seconds difference of
the last and first chronological points, floored into minutes. -/
def elapsedWholeMinutes (first last : BatteryPoint) : ℕ :=
  (⌊(last.time - first.time) / 60⌋ : Int).toNat

/-- Zero-padding a natural number to two digits. -/
def padNat2 (n : ℕ) : Str :=
  let s := natDigits n
  if s.length < 2 then '0' :: s else s

theorem intStr_natCast (k : ℕ) : intStr (k : Int) = natDigits k := by
  unfold intStr
  rw [if_neg (by simp), Int.toNat_natCast]

theorem pad2_natCast (k : ℕ) : pad2 (k : Int) = padNat2 k := by
  unfold pad2 padNat2
  rw [intStr_natCast]

theorem int_fdiv_sixty_natCast (n : ℕ) : Int.fdiv (n : Int) 60 = ((n / 60 : ℕ) : Int) := by
  rw [Int.fdiv_eq_ediv _ (by norm_num)]
  omega

theorem int_fmod_sixty_natCast (n : ℕ) : Int.fmod (n : Int) 60 = ((n % 60 : ℕ) : Int) := by
  rw [Int.fmod_eq_emod _ (by norm_num)]
  omega

/-- C5: on the empty point sequence the battery analyzer returns the
explicit all-`N/A` summary; on a chronological nonempty sequence it
returns the first and last percentages as integer percents, the elapsed
seconds converted to whole minutes and rendered `HH:MM` (hours unbounded,
minutes `00`–`59`, both zero-padded), and the percent drop
`first − last` with its sign preserved; in particular a rise in
percentage yields a drop rendered with a leading minus sign, never
clamped. -/
theorem C5_battery_summary :
    parse_debug_summary [] = naSummary ∧
    (∀ (p0 : BatteryPoint) (rest : List BatteryPoint),
      p0.time ≤ (lastPoint p0 rest).time →
      parse_debug_summary (p0 :: rest) =
        ⟨natDigits p0.percent ++ ['%'],
         natDigits (lastPoint p0 rest).percent ++ ['%'],
         padNat2 (elapsedWholeMinutes p0 (lastPoint p0 rest) / 60) ++
           ':' :: padNat2 (elapsedWholeMinutes p0 (lastPoint p0 rest) % 60),
         intStr ((p0.percent : Int) - ((lastPoint p0 rest).percent : Int)) ++ ['%']⟩ ∧
      elapsedWholeMinutes p0 (lastPoint p0 rest) % 60 < 60 ∧
      (p0.percent < (lastPoint p0 rest).percent →
        intStr ((p0.percent : Int) - ((lastPoint p0 rest).percent : Int)) =
          '-' :: natDigits ((lastPoint p0 rest).percent - p0.percent))) := by
  constructor
  · rfl
  · intro p0 rest hchron
    have h0 : (0 : Int) ≤ ⌊((lastPoint p0 rest).time - p0.time) / 60⌋ := by
      rw [Int.le_floor]
      have hd : (0 : ℚ) ≤ (lastPoint p0 rest).time - p0.time := by linarith
      push_cast
      positivity
    obtain ⟨n, hn⟩ := Int.eq_ofNat_of_zero_le h0
    have hEWM : elapsedWholeMinutes p0 (lastPoint p0 rest) = n := by
      unfold elapsedWholeMinutes
      rw [hn, Int.toNat_natCast]
    refine ⟨?_, Nat.mod_lt _ (by norm_num), ?_⟩
    · have hred : parse_debug_summary (p0 :: rest) =
          ⟨natDigits p0.percent ++ ['%'],
           natDigits (lastPoint p0 rest).percent ++ ['%'],
           pad2 (Int.fdiv ⌊((lastPoint p0 rest).time - p0.time) / 60⌋ 60) ++
             ':' :: pad2 (Int.fmod ⌊((lastPoint p0 rest).time - p0.time) / 60⌋ 60),
           intStr ((p0.percent : Int) - ((lastPoint p0 rest).percent : Int)) ++ ['%']⟩ := rfl
      rw [hred, hEWM, hn, int_fdiv_sixty_natCast, int_fmod_sixty_natCast,
        pad2_natCast, pad2_natCast]
    · intro hrise
      have hneg : ((p0.percent : Int) - ((lastPoint p0 rest).percent : Int)) < 0 := by
        omega
      have habs : ((p0.percent : Int) - ((lastPoint p0 rest).percent : Int)).natAbs =
          (lastPoint p0 rest).percent - p0.percent := by
        omega
      unfold intStr
      rw [if_pos hneg, habs]

/-- C5 witness: the spec's example points (0 s, 50 %), (600 s, 45 %),
(3600 s, 20 %) give first 50%, last 20%, elapsed 01:00, drop 30%. -/
theorem C5_battery_summary_witness :
    (⟨0, 4, 50⟩ : BatteryPoint).time ≤
      (lastPoint ⟨0, 4, 50⟩ [⟨600, 4, 45⟩, ⟨3600, 4, 20⟩]).time ∧
    parse_debug_summary [⟨0, 4, 50⟩, ⟨600, 4, 45⟩, ⟨3600, 4, 20⟩] =
      ⟨(r"50%").toList, (r"20%").toList, (r"01:00").toList, (r"30%").toList⟩ :=
  ⟨by norm_num [lastPoint],
   by
     rw [(C5_battery_summary.2 ⟨0, 4, 50⟩ [⟨600, 4, 45⟩, ⟨3600, 4, 20⟩]
       (by norm_num [lastPoint])).1]
     have hlast : lastPoint (⟨0, 4, 50⟩ : BatteryPoint) [⟨600, 4, 45⟩, ⟨3600, 4, 20⟩] =
         ⟨3600, 4, 20⟩ := rfl
     rw [hlast]
     have hE : elapsedWholeMinutes (⟨0, 4, 50⟩ : BatteryPoint) ⟨3600, 4, 20⟩ = 60 := by
       unfold elapsedWholeMinutes
       norm_num
       rfl
     rw [hE]
     decide⟩

-- ### Orientation summary (`parse_orientation_data`, diag_tool_logic.py:166-212)

/-- One character of `ORIENTATION_PATTERN`'s class `[\+ru\.]`. -/
def isOrientChar (c : Char) : Bool := c = '+' || c = 'r' || c = 'u' || c = '.'

/-- `ORIENTATION_PATTERN.match(line)` with pattern `^[\+ru\.]+$`: a
nonempty line consisting only of the four reading characters. -/
def orientMatch (l : Str) : Bool := !l.isEmpty && l.all isOrientChar

/-- `str.count` for a single character. -/
def countCh (c : Char) (s : Str) : Nat := (s.filter (fun x => x = c)).length

/-- The four labelled counters of `parse_orientation_data`, in insertion
order. -/
def orientCounts (s : Str) : List (Str × Nat) :=
  [((r"Okay (+)").toList, countCh '+' s),
   ((r"Reversed (r)").toList, countCh 'r' s),
   ((r"Upside Down (u)").toList, countCh 'u' s),
   ((r"Flat (.)").toList, countCh '.' s)]

/-- `parse_orientation_data`: keep the stripped nonempty lines, scan them
in reverse for the first (hence the last) line matching the orientation
pattern; with no match return the empty results, otherwise the line, its
four counters, and the Okay percentage `count('+') / len * 100` (with 0.0
guarding a zero length). -/
def parse_orientation_data (raw : Str) : Str × List (Str × Nat) × ℚ :=
  match (((pySplitlines raw).map pyStrip).filter (fun l => !l.isEmpty)).reverse.find?
      orientMatch with
  | none => ([], [], 0)
  | some s =>
    (s, orientCounts s,
     if s.length > 0 then ((countCh '+' s : ℚ) / (s.length : ℚ)) * 100 else 0)

/-- Searching a reversed list for the first hit finds the last hit. -/
theorem reverse_find?_eq_getLast?_filter {α : Type} (p : α → Bool) (l : List α) :
    l.reverse.find? p = (l.filter p).getLast? := by
  induction l using List.reverseRecOn with
  | nil => rfl
  | append_singleton l a ih =>
    rw [List.reverse_append, List.filter_append, List.reverse_singleton,
      List.singleton_append]
    by_cases hp : p a
    · rw [List.find?_cons_of_pos _ hp]
      have hfa : List.filter p [a] = [a] := by simp [List.filter_cons, hp]
      rw [hfa, List.getLast?_concat]
    · rw [List.find?_cons_of_neg _ hp]
      have hfa : List.filter p [a] = [] := by simp [List.filter_cons, hp]
      rw [hfa, List.append_nil, ih]

/-- The example text of claim C6: `garbage\n+++ru\n..+uru\n`. -/
def exOrient : Str :=
  (r"garbage").toList ++ nlChar :: (r"+++ru").toList ++ nlChar ::
    (r"..+uru").toList ++ [nlChar]

/-- C6: the orientation analyzer selects the LAST stripped nonempty line
made exclusively of `+`, `r`, `u`, `.`; with no such line it returns the
empty string, empty counts and percentage 0; otherwise it returns that
line, the count of each of the four characters, and an Okay percentage of
`100 * count('+') / length`, never a division fault.  On the example text
`garbage\n+++ru\n..+uru\n` it returns `..+uru` with counts 1, 1, 2, 2 and
percentage 50/3 (rendered 16.67 by the UI's two-decimal format). -/
theorem C6_orientation_last_line (raw : Str) :
    parse_orientation_data raw =
      (match ((((pySplitlines raw).map pyStrip).filter (fun l => !l.isEmpty)).filter
          orientMatch).getLast? with
       | none => (([] : Str), ([] : List (Str × Nat)), (0 : ℚ))
       | some s => (s, orientCounts s, 100 * (countCh '+' s : ℚ) / s.length)) ∧
    parse_orientation_data exOrient =
      ((r"..+uru").toList,
       [((r"Okay (+)").toList, 1), ((r"Reversed (r)").toList, 1),
        ((r"Upside Down (u)").toList, 2), ((r"Flat (.)").toList, 2)],
       50 / 3) := by
  constructor
  · unfold parse_orientation_data
    cases h : (((pySplitlines raw).map pyStrip).filter
        (fun l => !l.isEmpty)).reverse.find? orientMatch with
    | none =>
      have h2 : ((((pySplitlines raw).map pyStrip).filter
          (fun l => !l.isEmpty)).filter orientMatch).getLast? = none := by
        rw [← reverse_find?_eq_getLast?_filter]
        exact h
      simp only [h, h2]
    | some s =>
      have hm : orientMatch s = true := List.find?_some h
      have hlen : 0 < s.length := by
        unfold orientMatch at hm
        cases s with
        | nil => simp at hm
        | cons a t => simp
      have h2 : ((((pySplitlines raw).map pyStrip).filter
          (fun l => !l.isEmpty)).filter orientMatch).getLast? = some s := by
        rw [← reverse_find?_eq_getLast?_filter]
        exact h
      simp only [h, h2]
      rw [if_pos hlen]
      have hq : ((countCh '+' s : ℚ) / (s.length : ℚ)) * 100 =
          100 * (countCh '+' s : ℚ) / s.length := by ring
      rw [hq]
  · have hpre : (((pySplitlines exOrient).map pyStrip).filter
        (fun l => !l.isEmpty)).reverse.find? orientMatch =
          some ((r"..+uru").toList) := by decide
    unfold parse_orientation_data
    simp only [hpre]
    have hcounts : orientCounts ((r"..+uru").toList) =
        [((r"Okay (+)").toList, 1), ((r"Reversed (r)").toList, 1),
         ((r"Upside Down (u)").toList, 2), ((r"Flat (.)").toList, 2)] := by decide
    have hc : countCh '+' ((r"..+uru").toList) = 1 := by decide
    have hl : ((r"..+uru").toList).length = 6 := by decide
    rw [hcounts, hc, hl]
    norm_num

-- ### HR-mode setting (`set_hr_mode`, diag_tool_logic.py:370-409)

/-- The result triple of one `run_command` invocation of the external
configuration tool: success flag, stdout, stderr. -/
structure ExecResult where
  success : Bool
  stdout : Str
  stderr : Str

/-- The fixed command-argument sequences of `set_hr_mode`, in listed
order (the empty list encodes the `else` branch for an unknown mode). -/
def hrCommands (mode : Str) : List (List Str) :=
  if mode = (r"Polar Strap").toList then
    [[(r"-ds").toList, (r"3").toList], [(r"-dc").toList, (r"28").toList],
     [(r"-dc").toList, (r"30").toList]]
  else if mode = (r"Integrated HR").toList then
    [[(r"-ds").toList, (r"3").toList], [(r"-ds").toList, (r"28").toList],
     [(r"-dc").toList, (r"30").toList]]
  else if mode = (r"Bluetooth HR").toList then
    [[(r"-ds").toList, (r"3").toList], [(r"-ds").toList, (r"30").toList],
     [(r"-dc").toList, (r"28").toList]]
  else []

/-- One log entry of the command loop: `SUCCESS:` with stdout or
`ERROR:` with stderr. -/
def hrLogEntry (ex : List Str → ExecResult) (args : List Str) : Str :=
  if (ex args).success then
    (r"SUCCESS: ").toList ++ joinSp args ++ nlChar :: (ex args).stdout
  else
    (r"ERROR: ").toList ++ joinSp args ++ nlChar :: (ex args).stderr

/-- The `for exe, args in commands` loop of `set_hr_mode`: every command
is executed in order and its result appended to the log; the loop has no
early exit on failure. -/
def hrLoop (ex : List Str → ExecResult) : List (List Str) → List Str
  | [] => []
  | args :: rest => hrLogEntry ex args :: hrLoop ex rest

/-- `set_hr_mode` with the external tool abstracted as the function `ex`
from command arguments to its result: the invalid-mode message on an
unknown mode; otherwise the header, the per-command log lines and the
footer joined by newlines. -/
def set_hr_mode (ex : List Str → ExecResult) (mode : Str) : Str :=
  if hrCommands mode = [] then (r"Invalid mode selected.").toList
  else
    joinNl (((r"--- Setting HR Mode to: ").toList ++ mode ++ (r" ---").toList) ::
      (hrLoop ex (hrCommands mode) ++ [(r"--- HR Mode setting complete. ---").toList]))

/-- An external tool that fails every invocation, echoing its
arguments in stderr. -/
def failExec : List Str → ExecResult :=
  fun args => ⟨false, [], (r"fail ").toList ++ joinSp args⟩

/-- C7 counterexample: with a tool whose very first command fails, the
log of setting Polar Strap still reports the second and third commands
(`-dc 28`, `-dc 30`): all remaining commands are attempted after the
first failure, contradicting the claimed abort-on-first-failure. -/
theorem C7_abort_on_first_failure_cex :
    containsSub ((r"ERROR: -ds 3").toList)
      (set_hr_mode failExec (r"Polar Strap").toList) = true ∧
    containsSub ((r"ERROR: -dc 28").toList)
      (set_hr_mode failExec (r"Polar Strap").toList) = true ∧
    containsSub ((r"ERROR: -dc 30").toList)
      (set_hr_mode failExec (r"Polar Strap").toList) = true := by
  exact ⟨by decide, by decide, by decide⟩

theorem hrLoop_eq_map (ex : List Str → ExecResult) (cmds : List (List Str)) :
    hrLoop ex cmds = cmds.map (hrLogEntry ex) := by
  induction cmds with
  | nil => rfl
  | cons args rest ih => simp [hrLoop, ih]

/-- C7 amended: for every behaviour of the external tool, the commands of
a known HR mode are executed strictly in the listed order and each one's
success or failure is reported in the log in that order; execution
continues past a failing command (no abort and no rollback), so every
listed command contributes exactly one log entry. -/
theorem C7_sequential_reporting (ex : List Str → ExecResult) (mode : Str) :
    set_hr_mode ex mode =
      (if hrCommands mode = [] then (r"Invalid mode selected.").toList
       else
         joinNl (((r"--- Setting HR Mode to: ").toList ++ mode ++ (r" ---").toList) ::
           ((hrCommands mode).map (hrLogEntry ex) ++
             [(r"--- HR Mode setting complete. ---").toList]))) := by
  unfold set_hr_mode
  rw [hrLoop_eq_map]

-- ### Device scan (`get_connected_devices`, diag_tool_logic.py:276-306)

/-- The four captured groups of `SUMMARY_PATTERN`. -/
structure SummaryData where
  id : Str
  type : Str
  firmware : Str
  flags : Str
deriving DecidableEq

/-- ASCII `\w`. -/
def isWordChar (c : Char) : Bool := c.isAlpha || c.isDigit || c = '_'

/-- The firmware class `[\w\.\+a-fA-F0-9]` (the explicit hex ranges are
already inside `\w`). -/
def isFirmwareChar (c : Char) : Bool := isWordChar c || c = '.' || c = '+'

/-- The class `[a-fA-F0-9]`. -/
def isHexChar (c : Char) : Bool :=
  c.isDigit || ('a' ≤ c && c ≤ 'f') || ('A' ≤ c && c ≤ 'F')

/-- `SUMMARY_PATTERN`
(`ID:(\d+),Family=(.*?)/.*?,.*?Ver ([\w\.\+a-fA-F0-9]+),.*?Flags=(0x[a-fA-F0-9]+)`,
IGNORECASE) matched at the start of `s`, with backtracking over the lazy
gaps (each tried shortest first). -/
def summaryAt (s : Str) : Option SummaryData := do
  let r1 ← litCI (r"id:").toList s
  let (idS, r2) ← digits1 r1
  let r3 ← litCI (r",").toList r2
  let r4 ← litCI (r"family=").toList r3
  (lazySplits (r"/").toList r4).findSome? (fun q1 =>
    (lazySplits (r",").toList q1.2).findSome? (fun q2 =>
      (lazySplits (r"ver ").toList q2.2).findSome? (fun q3 => do
        let (fw, r5) ← class1 isFirmwareChar q3.2
        let r6 ← litCI (r",").toList r5
        (lazySplits (r"flags=").toList r6).findSome? (fun q4 =>
          match q4.2 with
          | c0 :: c1 :: r7 =>
            if c0 = '0' && (c1 = 'x' || c1 = 'X') then
              match class1 isHexChar r7 with
              | some hx => some ⟨idS, q1.1, fw, c0 :: c1 :: hx.1⟩
              | none => none
            else none
          | _ => none))))

/-- `re.search` with `SUMMARY_PATTERN`. -/
def summarySearch : Str → Option SummaryData := searchPos summaryAt

/-- One parsed device: the groupdict plus the derived fields the scan
attaches (zero-stripped id, bit status, bit table, HR mode). -/
structure DeviceRec where
  id : Str
  type : Str
  firmware : Str
  flags : Str
  bit_status : List (Str × Str)
  all_bits : List BitEntry
  hr_mode : Str
deriving DecidableEq

/-- The device record built from a summary match. -/
def deviceOfMatch (m : SummaryData) : DeviceRec :=
  ⟨lstrip0 m.id, m.type, m.firmware, m.flags,
   (get_bit_status m.flags).1, (get_bit_status m.flags).2,
   get_current_hr_mode (get_bit_status m.flags).1⟩

/-- The line loop of `get_connected_devices`: a matching line appends a
device; a non-matching line containing the literal marker `ID:`
(a case-sensitive substring test) appends a parse-failure note; every
other line is ignored. -/
def scanLoop : List Str → List DeviceRec × List Str
  | [] => ([], [])
  | l :: ls =>
    match summarySearch l with
    | some m => (deviceOfMatch m :: (scanLoop ls).1, (scanLoop ls).2)
    | none =>
      if containsSub ((r"ID:").toList) l then
        ((scanLoop ls).1, ((r"Failed to parse line: ").toList ++ l) :: (scanLoop ls).2)
      else scanLoop ls

/-- `get_connected_devices` after a successful tool invocation: the
parsed devices and the error text (the joined parse-failure log, or the
no-devices message when both are empty). -/
def get_connected_devices (stdout : Str) : List DeviceRec × Str :=
  match scanLoop (pySplitlines stdout) with
  | (devices, errors) =>
    if devices = [] ∧ errors = [] then
      ([], (r"No devices found. Check connection.").toList)
    else (devices, joinNl errors)

/-- C8 counterexample: the line `id: hello device` contains the marker
`ID:` up to letter case and does not match the device-summary pattern,
yet the scan records no parse failure for it: the marker test is a
case-sensitive substring check, not a case-insensitive one. -/
theorem C8_marker_case_cex :
    summarySearch (r"id: hello device").toList = none ∧
    containsSubCI ((r"ID:").toList) (r"id: hello device").toList = true ∧
    scanLoop [(r"id: hello device").toList] = ([], []) := by
  exact ⟨by decide, by decide, by decide⟩

/-- C8 amended: the device scan appends a device for every line matched
by the summary pattern (whose own matching is case-insensitive), records
`Failed to parse line:` exactly for the non-matching lines that contain
the marker `ID:` as a case-sensitive substring, and ignores every other
line, contributing nothing to either output. -/
theorem C8_scan_loop_classification (ls : List Str) :
    scanLoop ls =
      (ls.filterMap (fun l => (summarySearch l).map deviceOfMatch),
       (ls.filter (fun l =>
          (summarySearch l).isNone && containsSub ((r"ID:").toList) l)).map
         (fun l => (r"Failed to parse line: ").toList ++ l)) := by
  induction ls with
  | nil => rfl
  | cons l ls ih =>
    cases hm : summarySearch l with
    | some m =>
      simp [scanLoop, hm, List.filterMap_cons, List.filter_cons, ih]
    | none =>
      by_cases hid : containsSub ['I', 'D', ':'] l
      · simp [scanLoop, hm, List.filterMap_cons, List.filter_cons, List.map_cons, hid, ih]
      · simp [scanLoop, hm, List.filterMap_cons, List.filter_cons, List.map_cons, hid, ih]
